import Mathlib

/-!
Shallow embedding of the document ingestion & extraction pipeline
(documentProcessor module: `validateFile`, `extractText`, the four format
extractors, `optimizeImage`, `countWords`, `detectLanguage`,
`processDocument`, `processDocuments`).

Modelling conventions:
- Byte buffers are `List Nat` (each entry one byte).
- JavaScript strings are Lean `String`; all string operations are
  implemented structurally on `String.data` so that closed terms evaluate
  inside the kernel.
- Floating-point constants of the source (0.9, 0.95, 0.98, 1.0) are
  modelled as exact rationals `ℚ`.
- External collaborators that the module imports (pdf-parse, mammoth,
  sharp, the Google Vision OCR wrapper, the Cloud Storage upload) are
  abstracted as an environment `Env` of fallible functions; a JavaScript
  rejection/throw is `Except.error`.
- `Buffer.toString("utf-8")` never throws in Node: invalid byte
  sequences are replaced by U+FFFD and decoding returns normally. It is
  modelled as the total lossy decoder `utf8DecodeLossy`, so the source's
  latin1 catch branch in `extractFromText` is dead code (kept as the
  separate definition `extractFromTextFallback`); the latin1 decoding
  maps each byte to the code point of the same value.
- `Math.ceil(len / 3000)` on naturals is `(len + 2999) / 3000`.
- The JavaScript division `results.length / files.length` yields `NaN`
  when `files` is empty; `BatchResult.successRate` is therefore an
  `Option ℚ`, with `none` standing for `NaN`.
-/

/-- The `SUPPORTED_TYPES.pdf` entry of the source's registered type table. -/
def SUPPORTED_TYPES_pdf : List String := ["application/pdf"]

/-- The `SUPPORTED_TYPES.doc` (Word-family) entries. -/
def SUPPORTED_TYPES_doc : List String :=
  ["application/msword",
   "application/vnd.openxmlformats-officedocument.wordprocessingml.document"]

/-- The `SUPPORTED_TYPES.image` entries. -/
def SUPPORTED_TYPES_image : List String :=
  ["image/jpeg", "image/jpg", "image/png", "image/gif", "image/bmp"]

/-- The `SUPPORTED_TYPES.text` entry. -/
def SUPPORTED_TYPES_text : List String := ["text/plain"]

/-- Flattened table `Object.values(SUPPORTED_TYPES).flat()` as used by `validateFile`. -/
def SUPPORTED_TYPES_flat : List String :=
  SUPPORTED_TYPES_pdf ++ SUPPORTED_TYPES_doc ++ SUPPORTED_TYPES_image ++ SUPPORTED_TYPES_text

/-- Read-once configuration: `MAX_FILE_SIZE_MB` (default 50) and
`ALLOWED_FILE_TYPES` (default list, used only in the error message). -/
structure Config where
  maxFileSizeMB : Nat
  allowedFileTypes : List String
deriving DecidableEq

/-- The defaults the source falls back to when the env vars are unset. -/
def defaultConfig : Config :=
  ⟨50, ["pdf", "doc", "docx", "txt", "jpg", "jpeg", "png"]⟩

/-- A submitted multer file object: `{originalname, mimetype, size, buffer}`. -/
structure Job where
  originalname : String
  mimetype : String
  size : Nat
  buffer : List Nat
deriving DecidableEq

/-- Model of `String.prototype.startsWith`, implemented on the char list. -/
def jsStartsWith (s pre : String) : Bool := pre.data.isPrefixOf s.data

/-- Helper for `String.prototype.includes`: is `needle` a contiguous
sublist of the second argument? -/
def includesAux (needle : List Char) : List Char → Bool
  | [] => needle.isEmpty
  | c :: cs => needle.isPrefixOf (c :: cs) || includesAux needle cs

/-- Model of `String.prototype.includes`. -/
def strIncludes (s sub : String) : Bool := includesAux sub.data s.data

/-- Model of `String.prototype.toLowerCase` (ASCII, as used on mime types). -/
def jsToLower (s : String) : String := String.mk (s.data.map Char.toLower)

/-- Model of `type.split('/')[1]`: the part strictly between the first slash and
the next slash (or the end). -/
def subtypeOf (t : String) : String :=
  String.mk (((t.data.dropWhile (fun c => c != '/')).drop 1).takeWhile (fun c => c != '/'))

/-- Trimming whitespace from both ends of a char list
(`String.prototype.trim`). -/
def trimList (l : List Char) : List Char :=
  ((l.dropWhile Char.isWhitespace).reverse.dropWhile Char.isWhitespace).reverse

/-- Model of `String.prototype.trim`. -/
def jsTrim (s : String) : String := String.mk (trimList s.data)

/-- Model of `String.prototype.split(/\s+/)`: the pieces between maximal runs of
whitespace, keeping an empty piece at an end that starts or finishes
with whitespace (as the JavaScript regex split does). Structural
recursion so that closed applications evaluate in the kernel. -/
def splitRuns : List Char → List (List Char)
  | [] => [[]]
  | c :: cs =>
    if c.isWhitespace then
      match cs with
      | [] => [[], []]
      | d :: _ => if d.isWhitespace then splitRuns cs else [] :: splitRuns cs
    else
      match splitRuns cs with
      | [] => [[c]]
      | t :: ts => (c :: t) :: ts

/-- Model of `s.split(/\s+/)` on a string, producing strings. -/
def jsSplitWs (s : String) : List String := (splitRuns s.data).map (fun t => String.mk t)

/-- Byte-wise latin1 decoding: `buffer.toString('latin1')`. Every byte is
the code point of the resulting character, so the length is preserved. -/
def latin1Decode (buffer : List Nat) : String := String.mk (buffer.map Char.ofNat)

/-- Is `b` a UTF-8 continuation byte? -/
def isCont (b : Nat) : Bool := 0x80 ≤ b && b < 0xC0

/-- Total lossy UTF-8 decoding, fuel-indexed so that the recursion is
structural (on the fuel) and closed applications evaluate inside the
kernel. Each step consumes at least one byte and one unit of fuel, so
fuel equal to the list length always suffices; the fuel-exhausted case
is unreachable under that call pattern. Every invalid sequence (stray
continuation bytes, overlong forms, surrogates, out-of-range or
truncated sequences) is replaced by U+FFFD following the WHATWG
maximal-subpart rule (the longest valid prefix of a sequence is consumed
per replacement character). -/
def utf8LossyGo : Nat → List Nat → List Nat
  | _, [] => []
  | 0, _ :: _ => []
  | fuel + 1, b1 :: bs =>
    if b1 < 0x80 then b1 :: utf8LossyGo fuel bs
    else if 0xC2 ≤ b1 && b1 ≤ 0xDF then
      match bs with
      | b2 :: bs2 =>
        if isCont b2 then ((b1 - 0xC0) * 0x40 + (b2 - 0x80)) :: utf8LossyGo fuel bs2
        else 0xFFFD :: utf8LossyGo fuel (b2 :: bs2)
      | [] => [0xFFFD]
    else if 0xE0 ≤ b1 && b1 ≤ 0xEF then
      match bs with
      | b2 :: bs2 =>
        if (if b1 = 0xE0 then 0xA0 ≤ b2 && b2 < 0xC0
            else if b1 = 0xED then 0x80 ≤ b2 && b2 < 0xA0
            else isCont b2) then
          match bs2 with
          | b3 :: bs3 =>
            if isCont b3 then
              ((b1 - 0xE0) * 0x1000 + (b2 - 0x80) * 0x40 + (b3 - 0x80)) :: utf8LossyGo fuel bs3
            else 0xFFFD :: utf8LossyGo fuel (b3 :: bs3)
          | [] => [0xFFFD]
        else 0xFFFD :: utf8LossyGo fuel (b2 :: bs2)
      | [] => [0xFFFD]
    else if 0xF0 ≤ b1 && b1 ≤ 0xF4 then
      match bs with
      | b2 :: bs2 =>
        if (if b1 = 0xF0 then 0x90 ≤ b2 && b2 < 0xC0
            else if b1 = 0xF4 then 0x80 ≤ b2 && b2 < 0x90
            else isCont b2) then
          match bs2 with
          | b3 :: bs3 =>
            if isCont b3 then
              match bs3 with
              | b4 :: bs4 =>
                if isCont b4 then
                  ((b1 - 0xF0) * 0x40000 + (b2 - 0x80) * 0x1000
                      + (b3 - 0x80) * 0x40 + (b4 - 0x80)) :: utf8LossyGo fuel bs4
                else 0xFFFD :: utf8LossyGo fuel (b4 :: bs4)
              | [] => [0xFFFD]
            else 0xFFFD :: utf8LossyGo fuel (b3 :: bs3)
          | [] => [0xFFFD]
        else 0xFFFD :: utf8LossyGo fuel (b2 :: bs2)
      | [] => [0xFFFD]
    else 0xFFFD :: utf8LossyGo fuel bs

/-- Node's `buffer.toString('utf-8')` decode: total and lossy, never
throws; invalid bytes become U+FFFD. -/
def utf8DecodeLossy (l : List Nat) : List Nat := utf8LossyGo l.length l

/-- The output of `pdf-parse`: `{text, numpages, info, version}` (the
`info` object abstracted to an opaque string). -/
structure PdfData where
  text : String
  numpages : Nat
  info : String
  version : String
deriving DecidableEq

/-- The output of `mammoth.extractRawText`: `{value, messages}`. -/
structure MammothResult where
  value : String
  messages : List String
deriving DecidableEq

/-- The OCR collaborator's response: `{text, confidence, pages}` with
`pages` an array of page descriptors (abstracted to numbers; only its
length is consumed). -/
structure VisionResult where
  text : String
  confidence : ℚ
  pages : List Nat
deriving DecidableEq

/-- Result of the Cloud Storage upload collaborator. -/
structure UploadResult where
  url : String
deriving DecidableEq

/-- External collaborators and ambient values (uuid, clock) consumed by
the pipeline, abstracted as an environment. A JavaScript throw/rejection
is `Except.error`. -/
structure Env where
  pdfParse : List Nat → Except String PdfData
  mammothExtractRawText : List Nat → Except String MammothResult
  sharpPipeline : List Nat → Except String (List Nat)
  analyzeDocument : List Nat → Except String VisionResult
  uploadFile : List Nat → String → String → Except String UploadResult
  uuid : String
  elapsedMs : Nat
  nowIso : String

/-- Per-extractor output `ExtractionResult`, with the heterogeneous
`metadata` object flattened into optional fields (`extractionMethod`,
pdf `info`/`version`, mammoth `messages`, image byte sizes). -/
structure ExtractionResult where
  text : String
  confidence : ℚ
  pages : Nat
  encoding : Option String
  extractionMethod : Option String
  info : Option String
  version : Option String
  messages : List String
  originalSize : Option Nat
  optimizedSize : Option Nat
deriving DecidableEq

/-- The final artifact assembled by `processDocument`, with the
`metadata` object flattened (`language`, `encoding`, `createdAt`,
spread extractor metadata represented by `extractionMethod`). -/
structure ProcessedDocument where
  documentId : String
  originalName : String
  mimeType : String
  size : Nat
  uploadUrl : String
  extractedText : String
  confidence : ℚ
  pages : Nat
  wordCount : Nat
  processingTime : Nat
  language : String
  encoding : String
  createdAt : String
  extractionMethod : Option String
deriving DecidableEq

/-- A `{fileName, error}` entry of `BatchResult.failed`. -/
structure FailedEntry where
  fileName : String
  error : String
deriving DecidableEq

/-- The batch outcome. `successRate` is `Option ℚ`: `none` models the
JavaScript `NaN` produced by `0 / 0` on an empty submission. -/
structure BatchResult where
  successful : List ProcessedDocument
  failed : List FailedEntry
  totalProcessed : Nat
  successRate : Option ℚ
deriving DecidableEq

/-- Source `validateFile(file)`: file present, size bound, then mime type
matched exactly or by prefix against the flattened four-category table.
Pure; returns the specific error message of the first failing check. -/
def validateFile (cfg : Config) (file : Option Job) : Except String Unit :=
  let maxSize := cfg.maxFileSizeMB * 1024 * 1024
  let allowedTypes := cfg.allowedFileTypes
  match file with
  | none => .error "No file provided"
  | some f =>
    if maxSize < f.size then
      .error ("File size too large. Maximum allowed: " ++ toString cfg.maxFileSizeMB ++ "MB")
    else if SUPPORTED_TYPES_flat.any (fun t => f.mimetype == t || jsStartsWith f.mimetype t) then
      .ok ()
    else
      .error ("Unsupported file type: " ++ f.mimetype ++ ". Supported types: "
        ++ String.intercalate ", " allowedTypes)

/-- Source `countWords(text)`: guard on empty text, then trim, split on runs of
whitespace, drop empty tokens, count. -/
def countWords (text : String) : Nat :=
  if text = "" then 0
  else ((jsSplitWs (jsTrim text)).filter (fun w => decide (0 < w.length))).length

/-- English stop words of `commonWords.en`. -/
def enWords : List String :=
  ["the", "and", "or", "but", "in", "on", "at", "to", "for", "of"]

/-- Spanish stop words of `commonWords.es`. -/
def esWords : List String :=
  ["el", "la", "y", "o", "pero", "en", "un", "una", "de", "que"]

/-- French stop words of `commonWords.fr`. -/
def frWords : List String :=
  ["le", "de", "et", "ou", "mais", "dans", "sur", "pour", "avec", "ce"]

/-- Entry list `Object.entries(commonWords)` in insertion order. -/
def commonWords : List (String × List String) :=
  [("en", enWords), ("es", esWords), ("fr", frWords)]

/-- The per-language score: how many of the given tokens are in the
language's stop-word list. -/
def langScore (words : List String) (langWords : List String) : Nat :=
  (words.filter (fun word => langWords.contains word)).length

/-- Source `detectLanguage(text)`: `'unknown'` on empty text, else score the
first 100 lowercased whitespace-split tokens against each language list
in insertion order, keeping a language only when it strictly beats the
running maximum (initialised to `(0, 'en')`). -/
def detectLanguage (text : String) : String :=
  if text = "" then "unknown"
  else
    let words := (jsSplitWs (jsToLower text)).take 100
    (commonWords.foldl
      (fun acc p => if acc.1 < langScore words p.2 then (langScore words p.2, p.1) else acc)
      (0, "en")).2

/-- Source `extractFromPDFWithOCR(buffer)`: the OCR fallback stub; returns the
non-fatal empty extraction tagged `ocr-fallback`. -/
def extractFromPDFWithOCR (_buffer : List Nat) : Except String ExtractionResult :=
  .ok ⟨"", 0, 0, none, some "ocr-fallback", none, none, [], none, none⟩

/-- Source `extractFromPDF(buffer)`: primary text-layer read via pdf-parse with
confidence 0.95 and the embedded page count; on any fault, fall back to
`extractFromPDFWithOCR`. -/
def extractFromPDF (env : Env) (buffer : List Nat) : Except String ExtractionResult :=
  match env.pdfParse buffer with
  | .ok data =>
    .ok ⟨data.text, 0.95, data.numpages, none, none, some data.info, some data.version,
      [], none, none⟩
  | .error _ => extractFromPDFWithOCR buffer

/-- Source `extractFromWord(buffer)`: mammoth raw text with confidence 0.98 and
pages estimated as `ceil(len/3000)`; faults propagate. -/
def extractFromWord (env : Env) (buffer : List Nat) : Except String ExtractionResult :=
  match env.mammothExtractRawText buffer with
  | .ok result =>
    .ok ⟨result.value, 0.98, (result.value.length + 2999) / 3000, none, some "mammoth",
      none, none, result.messages, none, none⟩
  | .error e => .error e

/-- Source `optimizeImage(buffer)`: the sharp pipeline; on any fault return the
original bytes unmodified (never throws). -/
def optimizeImage (env : Env) (buffer : List Nat) : List Nat :=
  match env.sharpPipeline buffer with
  | .ok optimized => optimized
  | .error _ => buffer

/-- Source `extractFromImage(buffer)`: optimize, then delegate the processed
bytes to the OCR collaborator; pages is `result.pages.length || 1`;
metadata records original and optimized byte sizes; faults propagate. -/
def extractFromImage (env : Env) (buffer : List Nat) : Except String ExtractionResult :=
  let optimizedBuffer := optimizeImage env buffer
  match env.analyzeDocument optimizedBuffer with
  | .ok result =>
    .ok ⟨result.text, result.confidence,
      if result.pages.length = 0 then 1 else result.pages.length,
      none, some "google-vision", none, none, [],
      some buffer.length, some optimizedBuffer.length⟩
  | .error e => .error e

/-- Source `extractFromText(buffer)`: `buffer.toString('utf-8')` decodes
lossily and never throws, so the `try` branch always succeeds with
confidence 1.0, encoding "UTF-8" and pages `ceil(len/3000)`. The
source's `catch` branch is `extractFromTextFallback` below. -/
def extractFromText (buffer : List Nat) : Except String ExtractionResult :=
  let text := String.mk ((utf8DecodeLossy buffer).map Char.ofNat)
  .ok ⟨text, 1.0, (text.length + 2999) / 3000, some "UTF-8", some "direct",
    none, none, [], none, none⟩

/-- The `catch` branch of the source's `extractFromText` (latin1 decode,
confidence 0.9, encoding "latin1", method 'direct-fallback'): dead code
in the program, because `Buffer.toString` never throws. -/
def extractFromTextFallback (buffer : List Nat) : Except String ExtractionResult :=
  let text := latin1Decode buffer
  .ok ⟨text, 0.9, (text.length + 2999) / 3000, some "latin1", some "direct-fallback",
    none, none, [], none, none⟩

/-- Source `extractText(file)`: lowercase the declared mime type, then classify
in order — PDF (exact membership), Word (exact membership), Image
(subtype substring test), plain text (exact membership) — and dispatch
to the matching extractor; otherwise the unsupported-type error. -/
def extractText (env : Env) (file : Job) : Except String ExtractionResult :=
  let mimeType := jsToLower file.mimetype
  if SUPPORTED_TYPES_pdf.contains mimeType then
    extractFromPDF env file.buffer
  else if SUPPORTED_TYPES_doc.contains mimeType then
    extractFromWord env file.buffer
  else if SUPPORTED_TYPES_image.any (fun t => strIncludes mimeType (subtypeOf t)) then
    extractFromImage env file.buffer
  else if SUPPORTED_TYPES_text.contains mimeType then
    extractFromText file.buffer
  else
    .error ("Unsupported file type: " ++ mimeType)

/-- Source `processDocument(file)`: validate, extract, upload, then assemble the
`ProcessedDocument` (`pages` is `extractionResult.pages || 1`, `encoding`
is `extractionResult.encoding || 'UTF-8'`); every fault is rethrown
wrapped as `Document processing failed: ...`. -/
def processDocument (env : Env) (cfg : Config) (file : Job) : Except String ProcessedDocument :=
  let documentId := env.uuid
  match validateFile cfg (some file) with
  | .error e => .error ("Document processing failed: " ++ e)
  | .ok _ =>
    match extractText env file with
    | .error e => .error ("Document processing failed: " ++ e)
    | .ok extractionResult =>
      match env.uploadFile file.buffer file.originalname file.mimetype with
      | .error e => .error ("Document processing failed: " ++ e)
      | .ok uploadResult =>
        .ok
          { documentId := documentId
            originalName := file.originalname
            mimeType := file.mimetype
            size := file.size
            uploadUrl := uploadResult.url
            extractedText := extractionResult.text
            confidence := extractionResult.confidence
            pages := if extractionResult.pages = 0 then 1 else extractionResult.pages
            wordCount := countWords extractionResult.text
            processingTime := env.elapsedMs
            language := detectLanguage extractionResult.text
            encoding := extractionResult.encoding.getD "UTF-8"
            createdAt := env.nowIso
            extractionMethod := extractionResult.extractionMethod }

/-- One iteration of the `processDocuments` loop: append to `results` on
success, append a `{fileName, error}` pair to `errors` on failure. -/
def batchStep (env : Env) (cfg : Config)
    (acc : List ProcessedDocument × List FailedEntry) (file : Job) :
    List ProcessedDocument × List FailedEntry :=
  match processDocument env cfg file with
  | .ok result => (acc.1 ++ [result], acc.2)
  | .error e => (acc.1, acc.2 ++ [⟨file.originalname, e⟩])

/-- Source `processDocuments(files)`: sequential loop with independent per-item
accounting; `totalProcessed` is the submitted count and `successRate` is
`results.length / files.length * 100` (`none` = `NaN` on `0 / 0`). -/
def processDocuments (env : Env) (cfg : Config) (files : List Job) : BatchResult :=
  let p := files.foldl (batchStep env cfg) ([], [])
  { successful := p.1
    failed := p.2
    totalProcessed := files.length
    successRate :=
      if files.length = 0 then none
      else some ((p.1.length : ℚ) / (files.length : ℚ) * 100) }

/-- Specification-side splitter, following the spec's words for
`wordCount` ("split on whitespace"): every whitespace character is a
delimiter, so runs of whitespace produce empty tokens (dropped by the
subsequent filter). To be compared with the source-derived `countWords`. -/
def splitOnWs : List Char → List (List Char)
  | [] => [[]]
  | c :: cs =>
    if c.isWhitespace then [] :: splitOnWs cs
    else
      match splitOnWs cs with
      | [] => [[c]]
      | t :: ts => (c :: t) :: ts

/-- Specification-side word count: split on whitespace, drop empty
tokens, count. -/
def specWordCount (s : String) : Nat :=
  ((splitOnWs s.data).filter (fun t => !t.isEmpty)).length

/-- Proof-internal token counter: counts maximal non-whitespace runs,
threading whether the scan is currently inside a token. -/
def tokCount : List Char → Bool → Nat
  | [], _ => 0
  | c :: cs, inTok =>
    if c.isWhitespace then tokCount cs false
    else (if inTok then 0 else 1) + tokCount cs true

/-- Count of non-empty tokens in a split result. -/
def cntNE (xs : List (List Char)) : Nat := (xs.filter (fun t => !t.isEmpty)).length

/-- Is an `Except` a success? -/
def isOkE {α : Type} (x : Except String α) : Bool :=
  match x with
  | .ok _ => true
  | .error _ => false

/-- Concrete environment: pdf-parse and mammoth fault, sharp and upload
succeed, OCR faults. -/
def trivEnv : Env :=
  ⟨fun _ => .error "bad pdf", fun _ => .error "bad doc", fun b => .ok b,
   fun _ => .error "no ocr", fun _ _ _ => .ok ⟨"gs://bucket/file"⟩,
   "doc-1", 5, "2024-01-01T00:00:00Z"⟩

/-- Concrete environment whose sharp pipeline faults and whose OCR
succeeds. -/
def ocrEnv : Env :=
  ⟨fun _ => .error "bad pdf", fun _ => .error "bad doc", fun _ => .error "sharp boom",
   fun _ => .ok ⟨"ocr text", 0.8, [1, 2]⟩, fun _ _ _ => .ok ⟨"gs://x"⟩,
   "doc-2", 7, "2024-01-02T00:00:00Z"⟩

/-- A small valid plain-text job ("hello"). -/
def txtJob : Job := ⟨"a.txt", "text/plain", 5, [104, 101, 108, 108, 111]⟩

/-- A second small valid plain-text job ("hi"). -/
def txtJob2 : Job := ⟨"c.txt", "text/plain", 2, [104, 105]⟩

/-- A job one byte over the default 50 MB limit. -/
def bigJob : Job := ⟨"b.txt", "text/plain", 52428801, [104]⟩

/-- A PDF job (used with environments whose pdf-parse faults). -/
def pdfJob : Job := ⟨"d.pdf", "application/pdf", 10, [1, 2]⟩

/-- A job with an unregistered (archive) mime type. -/
def zipJob : Job := ⟨"e.zip", "application/zip", 10, []⟩

/-- A job whose mime type is a proper prefix-extension of a registered
entry: accepted by the validator's `startsWith`, matched by no exact or
substring test of the dispatcher. -/
def pdfxJob : Job := ⟨"f.pdf", "application/pdfx", 10, []⟩

/-- The document `processDocument` assembles for `pdfJob` under
`trivEnv` (OCR-fallback extraction, pages substituted to 1). -/
def pdfDoc : ProcessedDocument :=
  { documentId := "doc-1"
    originalName := "d.pdf"
    mimeType := "application/pdf"
    size := 10
    uploadUrl := "gs://bucket/file"
    extractedText := ""
    confidence := 0
    pages := 1
    wordCount := 0
    processingTime := 5
    language := "unknown"
    encoding := "UTF-8"
    createdAt := "2024-01-01T00:00:00Z"
    extractionMethod := some "ocr-fallback" }

instance exceptDecEq {ε α : Type} [DecidableEq ε] [DecidableEq α] :
    DecidableEq (Except ε α)
  | .ok a, .ok b => if h : a = b then .isTrue (by rw [h]) else .isFalse (by simp [h])
  | .error a, .error b => if h : a = b then .isTrue (by rw [h]) else .isFalse (by simp [h])
  | .ok _, .error _ => .isFalse (by simp)
  | .error _, .ok _ => .isFalse (by simp)

lemma processDocument_ok_fields (env : Env) (cfg : Config) (job : Job)
    (doc : ProcessedDocument) (h : processDocument env cfg job = .ok doc) :
    ∃ er, extractText env job = .ok er ∧
      doc.pages = (if er.pages = 0 then 1 else er.pages) ∧
      doc.wordCount = countWords er.text ∧
      doc.extractedText = er.text ∧
      doc.language = detectLanguage er.text ∧
      doc.confidence = er.confidence ∧
      doc.extractionMethod = er.extractionMethod := by
  simp only [processDocument] at h
  cases hv : validateFile cfg (some job) with
  | error e => rw [hv] at h; simp at h
  | ok u =>
    rw [hv] at h
    cases hx : extractText env job with
    | error e => rw [hx] at h; simp at h
    | ok er =>
      rw [hx] at h
      cases hu : env.uploadFile job.buffer job.originalname job.mimetype with
      | error e => rw [hu] at h; simp at h
      | ok up =>
        rw [hu] at h
        simp only [Except.ok.injEq] at h
        exact ⟨er, rfl, by rw [← h], by rw [← h], by rw [← h], by rw [← h],
          by rw [← h], by rw [← h]⟩

/-- C7: validation checks file presence, then the size bound
(default 50 MB), then mime-type membership by exact or prefix match,
failing fast with the specific reason of the first failing check; an
oversized job fails regardless of its type and an unregistered mime type
never validates. (The model is a pure function, so freedom from side
effects holds by construction.) -/
theorem validateFile_contract (cfg : Config) :
    validateFile cfg none = .error "No file provided" ∧
    (∀ j : Job, cfg.maxFileSizeMB * 1024 * 1024 < j.size →
      validateFile cfg (some j) =
        .error ("File size too large. Maximum allowed: "
          ++ toString cfg.maxFileSizeMB ++ "MB")) ∧
    (∀ j : Job, j.size ≤ cfg.maxFileSizeMB * 1024 * 1024 →
      SUPPORTED_TYPES_flat.any (fun t => j.mimetype == t || jsStartsWith j.mimetype t) = false →
      validateFile cfg (some j) =
        .error ("Unsupported file type: " ++ j.mimetype ++ ". Supported types: "
          ++ String.intercalate ", " cfg.allowedFileTypes)) ∧
    (∀ j : Job,
      SUPPORTED_TYPES_flat.any (fun t => j.mimetype == t || jsStartsWith j.mimetype t) = false →
      validateFile cfg (some j) ≠ .ok ()) ∧
    (∀ j : Job, validateFile cfg (some j) = .ok () ↔
      j.size ≤ cfg.maxFileSizeMB * 1024 * 1024 ∧
      SUPPORTED_TYPES_flat.any (fun t => j.mimetype == t || jsStartsWith j.mimetype t) = true) := by
  refine ⟨rfl, ?_, ?_, ?_, ?_⟩
  · intro j h
    simp only [validateFile]
    rw [if_pos h]
  · intro j h1 h2
    simp only [validateFile, h2]
    rw [if_neg (by omega)]
    simp
  · intro j h2 hok
    simp only [validateFile, h2] at hok
    split_ifs at hok
    simp_all
  · intro j
    constructor
    · intro hok
      simp only [validateFile] at hok
      split_ifs at hok with ha hb
      exact ⟨by omega, hb⟩
    · rintro ⟨hs, ht⟩
      simp only [validateFile]
      rw [if_neg (by omega), if_pos ht]

/-- Witness for C7: the oversized job fails with the size message, and
the archive-typed job never validates. -/
theorem validateFile_contract_witness :
    validateFile defaultConfig (some bigJob) =
      .error ("File size too large. Maximum allowed: "
        ++ toString defaultConfig.maxFileSizeMB ++ "MB") ∧
    validateFile defaultConfig (some zipJob) ≠ .ok () :=
  ⟨(validateFile_contract defaultConfig).2.1 bigJob (by decide),
   (validateFile_contract defaultConfig).2.2.2.1 zipJob (by decide)⟩

/-- C2 counterexample: the mime type "application/pdfx" passes
validation (prefix match against "application/pdf") yet reaches the
dispatcher's unsupported-file-type error branch, so that branch is
reachable after validation and the claim as stated is false. -/
theorem dispatcher_unsupported_reachable :
    validateFile defaultConfig (some pdfxJob) = .ok () ∧
    extractText trivEnv pdfxJob = .error "Unsupported file type: application/pdfx" :=
  ⟨rfl, rfl⟩

/-- C2 (amended): for every job whose declared mime type is exactly one
of the registered table entries, the dispatcher's classification
succeeds, dispatching to the matching extractor in PDF, Word, Image,
Text order; but validation's prefix matching also admits mime types
(for example "application/pdfx") on which the dispatcher's
unsupported-type branch is reached, so that branch is not unreachable. -/
theorem dispatcher_exact_match_classifies (env : Env) (job : Job)
    (h : job.mimetype ∈ SUPPORTED_TYPES_flat) :
    extractText env job = extractFromPDF env job.buffer ∨
    extractText env job = extractFromWord env job.buffer ∨
    extractText env job = extractFromImage env job.buffer ∨
    extractText env job = extractFromText job.buffer := by
  obtain ⟨n, m, sz, buf⟩ := job
  simp only [SUPPORTED_TYPES_flat, SUPPORTED_TYPES_pdf, SUPPORTED_TYPES_doc,
    SUPPORTED_TYPES_image, SUPPORTED_TYPES_text] at h
  fin_cases h
  · exact Or.inl rfl
  · exact Or.inr (Or.inl rfl)
  · exact Or.inr (Or.inl rfl)
  · exact Or.inr (Or.inr (Or.inl rfl))
  · exact Or.inr (Or.inr (Or.inl rfl))
  · exact Or.inr (Or.inr (Or.inl rfl))
  · exact Or.inr (Or.inr (Or.inl rfl))
  · exact Or.inr (Or.inr (Or.inl rfl))
  · exact Or.inr (Or.inr (Or.inr rfl))

/-- Witness for the amended C2 at the concrete plain-text job. -/
theorem dispatcher_exact_match_classifies_witness :
    extractText trivEnv txtJob = extractFromPDF trivEnv txtJob.buffer ∨
    extractText trivEnv txtJob = extractFromWord trivEnv txtJob.buffer ∨
    extractText trivEnv txtJob = extractFromImage trivEnv txtJob.buffer ∨
    extractText trivEnv txtJob = extractFromText txtJob.buffer :=
  dispatcher_exact_match_classifies trivEnv txtJob (by decide)

/-- C3: PDF extraction never throws; when the primary text-layer parse
faults it returns the structurally valid OCR-fallback placeholder
(empty text, confidence 0, pages 0, tagged "ocr-fallback"), and on the
non-faulting path it returns confidence 0.95 with the embedded page
count and a tag distinct from the fallback tag. -/
theorem pdf_fallback_contract (env : Env) (buffer : List Nat) :
    (∃ r, extractFromPDF env buffer = .ok r) ∧
    (∀ e, env.pdfParse buffer = .error e →
      ∃ r, extractFromPDF env buffer = .ok r ∧ r.text = "" ∧ r.confidence = 0 ∧
        r.pages = 0 ∧ r.extractionMethod = some "ocr-fallback") ∧
    (∀ d, env.pdfParse buffer = .ok d →
      ∃ r, extractFromPDF env buffer = .ok r ∧ r.text = d.text ∧ r.confidence = 0.95 ∧
        r.pages = d.numpages ∧ r.extractionMethod ≠ some "ocr-fallback") := by
  cases hp : env.pdfParse buffer with
  | error e =>
    refine ⟨⟨⟨"", 0, 0, none, some "ocr-fallback", none, none, [], none, none⟩, ?_⟩, ?_, ?_⟩
    · simp [extractFromPDF, hp, extractFromPDFWithOCR]
    · intro e' _
      exact ⟨⟨"", 0, 0, none, some "ocr-fallback", none, none, [], none, none⟩,
        by simp [extractFromPDF, hp, extractFromPDFWithOCR], rfl, rfl, rfl, rfl⟩
    · intro d hd
      simp at hd
  | ok d =>
    refine ⟨⟨⟨d.text, 0.95, d.numpages, none, none, some d.info, some d.version,
        [], none, none⟩, ?_⟩, ?_, ?_⟩
    · simp [extractFromPDF, hp]
    · intro e' he'
      simp at he'
    · intro d' hd'
      simp only [Except.ok.injEq] at hd'
      subst hd'
      exact ⟨⟨d.text, 0.95, d.numpages, none, none, some d.info, some d.version,
        [], none, none⟩, by simp [extractFromPDF, hp], rfl, rfl, rfl, by simp⟩

/-- Witness for C3 at a concrete faulting parse. -/
theorem pdf_fallback_contract_witness :
    ∃ r, extractFromPDF trivEnv [1] = .ok r ∧ r.text = "" ∧ r.confidence = 0 ∧
      r.pages = 0 ∧ r.extractionMethod = some "ocr-fallback" :=
  (pdf_fallback_contract trivEnv [1]).2.1 "bad pdf" rfl

/-- C9: image extraction feeds the (possibly optimized) bytes to the OCR
collaborator and fails exactly when that collaborator fails; the
preprocessor never throws, and on any internal preprocessing fault the
original bytes are forwarded unchanged, so the whole extraction behaves
as if preprocessing were the identity. -/
theorem image_preprocess_passthrough (env : Env) (buffer : List Nat) :
    isOkE (extractFromImage env buffer)
      = isOkE (env.analyzeDocument (optimizeImage env buffer)) ∧
    (∀ e, env.sharpPipeline buffer = .error e →
      optimizeImage env buffer = buffer ∧
      extractFromImage env buffer =
        extractFromImage { env with sharpPipeline := fun b => .ok b } buffer) := by
  constructor
  · cases ha : env.analyzeDocument (optimizeImage env buffer) <;>
      simp [extractFromImage, ha, isOkE]
  · intro e he
    have hopt : optimizeImage env buffer = buffer := by simp [optimizeImage, he]
    refine ⟨hopt, ?_⟩
    simp [extractFromImage, optimizeImage, he]

/-- Witness for C9 at a concrete faulting sharp pipeline. -/
theorem image_preprocess_passthrough_witness :
    optimizeImage ocrEnv [9] = [9] ∧
    extractFromImage ocrEnv [9] =
      extractFromImage { ocrEnv with sharpPipeline := fun b => .ok b } [9] :=
  (image_preprocess_passthrough ocrEnv [9]).2 "sharp boom" rfl

/-- C10: every assembled document has at least one page, and whenever
the underlying extraction reported zero pages the assembler substituted
exactly 1. -/
theorem assembled_pages_positive (env : Env) (cfg : Config) (job : Job)
    (doc : ProcessedDocument) (h : processDocument env cfg job = .ok doc) :
    1 ≤ doc.pages ∧ ∀ er, extractText env job = .ok er → er.pages = 0 → doc.pages = 1 := by
  obtain ⟨er, hx, hp, -⟩ := processDocument_ok_fields env cfg job doc h
  constructor
  · rw [hp]; split <;> omega
  · intro er' hx' h0
    rw [hx] at hx'
    injection hx' with h'
    subst h'
    rw [hp, if_pos h0]

/-- Witness for C10: the PDF job whose parse faults yields the
OCR-fallback placeholder (zero pages), assembled with pages = 1. -/
theorem assembled_pages_positive_witness : 1 ≤ pdfDoc.pages :=
  (assembled_pages_positive trivEnv defaultConfig pdfJob pdfDoc rfl).1

lemma batch_foldl (env : Env) (cfg : Config) :
    ∀ (files : List Job) (accS : List ProcessedDocument) (accF : List FailedEntry),
      files.foldl (batchStep env cfg) (accS, accF) =
        (accS ++ files.filterMap (fun f => (processDocument env cfg f).toOption),
         accF ++ files.filterMap (fun f =>
           match processDocument env cfg f with
           | .ok _ => none
           | .error e => some ⟨f.originalname, e⟩)) := by
  intro files
  induction files with
  | nil => intro accS accF; simp
  | cons f fs ih =>
    intro accS accF
    cases hf : processDocument env cfg f with
    | ok r =>
      rw [List.foldl_cons]
      have hstep : batchStep env cfg (accS, accF) f = (accS ++ [r], accF) := by
        simp [batchStep, hf]
      rw [hstep, ih]
      simp [hf, Except.toOption, List.filterMap_cons]
    | error e =>
      rw [List.foldl_cons]
      have hstep : batchStep env cfg (accS, accF) f = (accS, accF ++ [⟨f.originalname, e⟩]) := by
        simp [batchStep, hf]
      rw [hstep, ih]
      simp [hf, Except.toOption, List.filterMap_cons]

lemma processDocuments_spec (env : Env) (cfg : Config) (files : List Job) :
    (processDocuments env cfg files).successful =
      files.filterMap (fun f => (processDocument env cfg f).toOption) ∧
    (processDocuments env cfg files).failed =
      files.filterMap (fun f =>
        match processDocument env cfg f with
        | .ok _ => none
        | .error e => some ⟨f.originalname, e⟩) ∧
    (processDocuments env cfg files).totalProcessed = files.length ∧
    (processDocuments env cfg files).successRate =
      (if files.length = 0 then none
       else some (((processDocuments env cfg files).successful.length : ℚ)
         / (files.length : ℚ) * 100)) := by
  have h := batch_foldl env cfg files [] []
  simp only [List.nil_append] at h
  refine ⟨?_, ?_, rfl, ?_⟩
  · simp [processDocuments, h]
  · simp [processDocuments, h]
  · simp [processDocuments, h]

lemma toOption_ok {ε α : Type} (a : α) : (Except.ok a : Except ε α).toOption = some a := rfl

lemma toOption_error {ε α : Type} (e : ε) : (Except.error e : Except ε α).toOption = none := rfl

lemma filterMap_ok_err_length (env : Env) (cfg : Config) (files : List Job) :
    (files.filterMap (fun f => (processDocument env cfg f).toOption)).length
      + (files.filterMap (fun f =>
          match processDocument env cfg f with
          | .ok _ => none
          | .error e => some (⟨f.originalname, e⟩ : FailedEntry))).length = files.length := by
  induction files with
  | nil => rfl
  | cons f fs ih =>
    cases hf : processDocument env cfg f with
    | ok r =>
      simp only [List.filterMap_cons, hf, toOption_ok, List.length_cons]
      omega
    | error e =>
      simp only [List.filterMap_cons, hf, toOption_error, List.length_cons]
      omega

lemma batch_length (env : Env) (cfg : Config) (files : List Job) :
    (processDocuments env cfg files).successful.length
      + (processDocuments env cfg files).failed.length = files.length := by
  obtain ⟨h1, h2, -, -⟩ := processDocuments_spec env cfg files
  rw [h1, h2]
  exact filterMap_ok_err_length env cfg files

/-- C1 counterexample: for the empty submission the loop computes
`0 / 0`, which in the source's arithmetic is `NaN` (modelled as `none`),
not 0 as the claim states. -/
theorem batch_successRate_empty_not_zero :
    (processDocuments trivEnv defaultConfig []).successRate = none ∧
    (processDocuments trivEnv defaultConfig []).successRate ≠ some 0 :=
  ⟨rfl, by simp [processDocuments]⟩

/-- C1 (amended): `totalProcessed` equals the submitted count and equals
`len(successful) + len(failed)`, and for a non-empty submission
`successRate = len(successful) / totalProcessed * 100`; for an empty
submission `successRate` is the `NaN` of `0 / 0` (modelled `none`),
not 0. -/
theorem batch_totals_invariant (env : Env) (cfg : Config) (files : List Job) :
    (processDocuments env cfg files).totalProcessed = files.length ∧
    (processDocuments env cfg files).totalProcessed =
      (processDocuments env cfg files).successful.length
        + (processDocuments env cfg files).failed.length ∧
    (files = [] → (processDocuments env cfg files).successRate = none) ∧
    (files ≠ [] → (processDocuments env cfg files).successRate =
      some (((processDocuments env cfg files).successful.length : ℚ)
        / ((processDocuments env cfg files).totalProcessed : ℚ) * 100)) := by
  obtain ⟨h1, h2, h3, h4⟩ := processDocuments_spec env cfg files
  refine ⟨h3, ?_, ?_, ?_⟩
  · rw [h3]
    exact (batch_length env cfg files).symm
  · intro hnil
    subst hnil
    rfl
  · intro hne
    rw [h4, if_neg (fun h0 => hne (List.length_eq_zero.mp h0)), h3]

/-- Witness for the amended C1 at a concrete non-empty batch. -/
theorem batch_totals_invariant_witness :
    (processDocuments trivEnv defaultConfig [txtJob]).successRate =
      some (((processDocuments trivEnv defaultConfig [txtJob]).successful.length : ℚ)
        / ((processDocuments trivEnv defaultConfig [txtJob]).totalProcessed : ℚ) * 100) :=
  (batch_totals_invariant trivEnv defaultConfig [txtJob]).2.2.2 (by simp)

/-- C4: each submitted job contributes exactly one entry — its own
success to `successful` or its own `{fileName, error}` pair to `failed`,
each determined only by that job — so no failure aborts or alters any
sibling; and for the concrete 3-job batch with exactly one (oversized)
failure the result has 2 successes, 1 failure, `totalProcessed = 3` and
`successRate = 200/3 ≈ 66.67`. -/
theorem batch_isolation (env : Env) (cfg : Config) (files : List Job) :
    (processDocuments env cfg files).successful =
      files.filterMap (fun f => (processDocument env cfg f).toOption) ∧
    (processDocuments env cfg files).failed =
      files.filterMap (fun f =>
        match processDocument env cfg f with
        | .ok _ => none
        | .error e => some ⟨f.originalname, e⟩) ∧
    (processDocuments env cfg files).successful.length
      + (processDocuments env cfg files).failed.length = files.length ∧
    (processDocuments trivEnv defaultConfig [txtJob, bigJob, txtJob2]).successful.length = 2 ∧
    (processDocuments trivEnv defaultConfig [txtJob, bigJob, txtJob2]).failed.length = 1 ∧
    (processDocuments trivEnv defaultConfig [txtJob, bigJob, txtJob2]).totalProcessed = 3 ∧
    (processDocuments trivEnv defaultConfig [txtJob, bigJob, txtJob2]).successRate
      = some (200 / 3) ∧
    |(200 : ℚ) / 3 - 6667 / 100| < 1 / 100 := by
  obtain ⟨h1, h2, -, -⟩ := processDocuments_spec env cfg files
  refine ⟨h1, h2, batch_length env cfg files, rfl, rfl, rfl, ?_, ?_⟩
  · have h := (processDocuments_spec trivEnv defaultConfig [txtJob, bigJob, txtJob2]).2.2.2
    have hl : (processDocuments trivEnv defaultConfig
        [txtJob, bigJob, txtJob2]).successful.length = 2 := rfl
    rw [h, hl]
    simp only [List.length_cons, List.length_nil]
    norm_num
  · rw [abs_lt]
    constructor <;> norm_num

/-- C5 (code bug): the claimed latin1/0.9 fallback never happens. For
every buffer the plain-text extraction succeeds with confidence 1.0,
encoding "UTF-8" and pages `ceil(len(text)/3000)`, and never equals the
dead catch-branch result; at the failing input [0xFF] (invalid UTF-8)
the program yields text U+FFFD with confidence 1.0 and encoding "UTF-8",
not the claimed confidence 0.9 with a fallback encoding. -/
theorem text_extraction_fallback_dead :
    (∀ buffer : List Nat, ∃ r, extractFromText buffer = .ok r ∧ r.confidence = 1.0 ∧
      r.encoding = some "UTF-8" ∧ r.extractionMethod = some "direct" ∧
      r.pages = (r.text.length + 2999) / 3000) ∧
    (∀ buffer : List Nat, extractFromText buffer ≠ extractFromTextFallback buffer) ∧
    (∃ r, extractFromText [255] = .ok r ∧ r.text = String.mk [Char.ofNat 0xFFFD] ∧
      r.confidence = 1.0 ∧ r.confidence ≠ 0.9 ∧ r.encoding = some "UTF-8" ∧
      r.encoding ≠ some "latin1") := by
  refine ⟨?_, ?_, ?_⟩
  · intro buffer
    exact ⟨⟨String.mk ((utf8DecodeLossy buffer).map Char.ofNat), 1.0,
      ((String.mk ((utf8DecodeLossy buffer).map Char.ofNat)).length + 2999) / 3000,
      some "UTF-8", some "direct", none, none, [], none, none⟩, rfl, rfl, rfl, rfl, rfl⟩
  · intro buffer h
    simp only [extractFromText, extractFromTextFallback, Except.ok.injEq,
      ExtractionResult.mk.injEq] at h
    exact absurd h.2.1 (by norm_num)
  · refine ⟨⟨String.mk [Char.ofNat 0xFFFD], 1.0, 1, some "UTF-8", some "direct",
      none, none, [], none, none⟩, ?_, rfl, rfl, ?_, rfl, ?_⟩
    · rfl
    · norm_num
    · simp

lemma splitOnWs_ne_nil : ∀ l : List Char, splitOnWs l ≠ [] := by
  intro l
  cases l with
  | nil => simp [splitOnWs]
  | cons c cs =>
    cases hc : c.isWhitespace with
    | true => simp [splitOnWs, hc]
    | false =>
      cases hcs : splitOnWs cs with
      | nil => simp [splitOnWs, hc, hcs]
      | cons t ts => simp [splitOnWs, hc, hcs]

lemma splitRuns_ne_nil : ∀ l : List Char, splitRuns l ≠ [] := by
  intro l
  induction l with
  | nil => simp [splitRuns]
  | cons c cs ih =>
    cases hc : c.isWhitespace with
    | false =>
      cases hcs : splitRuns cs with
      | nil => simp [splitRuns, hc, hcs]
      | cons t ts => simp [splitRuns, hc, hcs]
    | true =>
      cases cs with
      | nil => simp [splitRuns, hc]
      | cons d cs' =>
        cases hd : d.isWhitespace with
        | true => simpa [splitRuns, hc, hd] using ih
        | false => simp [splitRuns, hc, hd]

lemma splitRuns_ws_head : ∀ (cs : List Char) (c : Char), c.isWhitespace = true →
    ∃ ts, splitRuns (c :: cs) = [] :: ts := by
  intro cs
  induction cs with
  | nil => intro c hc; exact ⟨[[]], by simp [splitRuns, hc]⟩
  | cons d cs' ih =>
    intro c hc
    cases hd : d.isWhitespace with
    | true =>
      have h1 : splitRuns (c :: d :: cs') = splitRuns (d :: cs') := by
        simp [splitRuns, hc, hd]
      rw [h1]
      exact ih d hd
    | false =>
      exact ⟨splitRuns (d :: cs'), by simp [splitRuns, hc, hd]⟩

lemma cntNE_cons_nil (xs : List (List Char)) : cntNE ([] :: xs) = cntNE xs := by
  simp [cntNE]

lemma cntNE_cons_cons (c : Char) (t : List Char) (xs : List (List Char)) :
    cntNE ((c :: t) :: xs) = cntNE xs + 1 := by
  simp [cntNE, List.filter_cons]

lemma tok_splitOnWs : ∀ l : List Char,
    tokCount l false = cntNE (splitOnWs l) ∧ tokCount l true = cntNE (splitOnWs l).tail := by
  intro l
  induction l with
  | nil => exact ⟨rfl, rfl⟩
  | cons c cs ih =>
    cases hc : c.isWhitespace with
    | true =>
      have h1 : splitOnWs (c :: cs) = [] :: splitOnWs cs := by
        simp [splitOnWs, hc]
      have h2 : ∀ b, tokCount (c :: cs) b = tokCount cs false := by
        intro b; simp [tokCount, hc]
      rw [h1, h2, h2, cntNE_cons_nil]
      exact ⟨ih.1, ih.1⟩
    | false =>
      obtain ⟨t, ts, ht⟩ := List.exists_cons_of_ne_nil (splitOnWs_ne_nil cs)
      have h1 : splitOnWs (c :: cs) = (c :: t) :: ts := by
        simp [splitOnWs, hc, ht]
      have h2 : tokCount (c :: cs) false = 1 + tokCount cs true := by
        simp [tokCount, hc]
      have h3 : tokCount (c :: cs) true = tokCount cs true := by
        simp [tokCount, hc]
      have h4 := ih.2
      rw [ht] at h4
      simp only [List.tail_cons] at h4
      rw [h1, h2, h3, cntNE_cons_cons]
      exact ⟨by omega, h4⟩

lemma tok_splitRuns : ∀ l : List Char,
    tokCount l false = cntNE (splitRuns l) ∧ tokCount l true = cntNE (splitRuns l).tail := by
  intro l
  induction l with
  | nil => exact ⟨rfl, rfl⟩
  | cons c cs ih =>
    cases hc : c.isWhitespace with
    | true =>
      have h2 : ∀ b, tokCount (c :: cs) b = tokCount cs false := by
        intro b; simp [tokCount, hc]
      cases cs with
      | nil =>
        have h1 : splitRuns [c] = [[], []] := by simp [splitRuns, hc]
        rw [h1, h2, h2]
        exact ⟨rfl, rfl⟩
      | cons d cs' =>
        cases hd : d.isWhitespace with
        | true =>
          have h1 : splitRuns (c :: d :: cs') = splitRuns (d :: cs') := by
            simp [splitRuns, hc, hd]
          obtain ⟨ts, hts⟩ := splitRuns_ws_head cs' d hd
          have h5 := ih.1
          rw [hts, cntNE_cons_nil] at h5
          refine ⟨?_, ?_⟩
          · rw [h2, h1, hts, cntNE_cons_nil]; exact h5
          · rw [h2, h1, hts]
            simp only [List.tail_cons]
            exact h5
        | false =>
          have h1 : splitRuns (c :: d :: cs') = [] :: splitRuns (d :: cs') := by
            simp [splitRuns, hc, hd]
          rw [h1, h2, h2, cntNE_cons_nil]
          exact ⟨ih.1, ih.1⟩
    | false =>
      obtain ⟨t, ts, ht⟩ := List.exists_cons_of_ne_nil (splitRuns_ne_nil cs)
      have h1 : splitRuns (c :: cs) = (c :: t) :: ts := by
        simp [splitRuns, hc, ht]
      have h2 : tokCount (c :: cs) false = 1 + tokCount cs true := by
        simp [tokCount, hc]
      have h3 : tokCount (c :: cs) true = tokCount cs true := by
        simp [tokCount, hc]
      have h4 := ih.2
      rw [ht] at h4
      simp only [List.tail_cons] at h4
      rw [h1, h2, h3, cntNE_cons_cons]
      exact ⟨by omega, h4⟩

lemma tok_dropWhile : ∀ l : List Char,
    tokCount (l.dropWhile Char.isWhitespace) false = tokCount l false := by
  intro l
  induction l with
  | nil => rfl
  | cons c cs ih =>
    cases hc : c.isWhitespace with
    | true => simpa [List.dropWhile_cons, hc, tokCount] using ih
    | false => simp [List.dropWhile_cons, hc, tokCount]

lemma tok_allWs : ∀ r : List Char, (∀ c ∈ r, c.isWhitespace = true) → ∀ b, tokCount r b = 0 := by
  intro r
  induction r with
  | nil => intro _ b; rfl
  | cons c cs ih =>
    intro h b
    have hc : c.isWhitespace = true := h c (by simp)
    simp only [tokCount, hc, if_true]
    exact ih (fun x hx => h x (by simp [hx])) false

lemma tok_append_ws : ∀ (m r : List Char), (∀ c ∈ r, c.isWhitespace = true) →
    ∀ b, tokCount (m ++ r) b = tokCount m b := by
  intro m
  induction m with
  | nil =>
    intro r h b
    simpa [tokCount] using tok_allWs r h b
  | cons c m' ih =>
    intro r h b
    cases hc : c.isWhitespace with
    | true =>
      simp only [List.cons_append, tokCount, hc, if_true]
      exact ih r h false
    | false =>
      simp only [List.cons_append, tokCount, hc, Bool.false_eq_true, if_false]
      simp only [List.append_eq]
      rw [ih r h true]

lemma tok_trim (l : List Char) : tokCount (trimList l) false = tokCount l false := by
  have key : ∀ m : List Char,
      tokCount ((m.reverse.dropWhile Char.isWhitespace).reverse) false = tokCount m false := by
    intro m
    have h : m.reverse.takeWhile Char.isWhitespace ++ m.reverse.dropWhile Char.isWhitespace
        = m.reverse := List.takeWhile_append_dropWhile Char.isWhitespace m.reverse
    have hsplit : m = (m.reverse.dropWhile Char.isWhitespace).reverse
        ++ (m.reverse.takeWhile Char.isWhitespace).reverse := by
      calc m = m.reverse.reverse := (List.reverse_reverse m).symm
        _ = (m.reverse.takeWhile Char.isWhitespace
              ++ m.reverse.dropWhile Char.isWhitespace).reverse := by rw [h]
        _ = (m.reverse.dropWhile Char.isWhitespace).reverse
              ++ (m.reverse.takeWhile Char.isWhitespace).reverse := by
            rw [List.reverse_append]
    have hws : ∀ c ∈ (m.reverse.takeWhile Char.isWhitespace).reverse, c.isWhitespace = true := by
      intro c hcmem
      rw [List.mem_reverse] at hcmem
      exact List.mem_takeWhile_imp hcmem
    conv_rhs => rw [hsplit]
    exact (tok_append_ws _ _ hws false).symm
  unfold trimList
  rw [key (l.dropWhile Char.isWhitespace)]
  exact tok_dropWhile l

lemma countWords_eq_tokCount (s : String) : countWords s = tokCount s.data false := by
  by_cases hs : s = ""
  · subst hs; rfl
  · unfold countWords
    rw [if_neg hs]
    unfold jsSplitWs jsTrim
    have hdata : (String.mk (trimList s.data)).data = trimList s.data := rfl
    rw [hdata, List.filter_map, List.length_map]
    have hfil : (((fun w : String => decide (0 < w.length)) ∘ fun t => String.mk t)
        = fun t : List Char => !t.isEmpty) := by
      funext t
      cases t <;> simp [Function.comp, String.length]
    rw [hfil]
    have h5 := (tok_splitRuns (trimList s.data)).1
    unfold cntNE at h5
    rw [← h5]
    exact tok_trim s.data

/-- C6: `countWords` equals the number of non-empty whitespace-delimited
tokens of its input (split on whitespace, drop empty tokens, count); in
particular it is 0 on the empty string and 3 on "a  b\tc"; and the
`wordCount` of every assembled document satisfies the same equality
against its `extractedText`. -/
theorem countWords_spec :
    (∀ s : String, countWords s = specWordCount s) ∧
    countWords "" = 0 ∧
    countWords "a  b\tc" = 3 ∧
    (∀ (env : Env) (cfg : Config) (job : Job) (doc : ProcessedDocument),
      processDocument env cfg job = .ok doc →
      doc.wordCount = specWordCount doc.extractedText) := by
  have hmain : ∀ s : String, countWords s = specWordCount s := by
    intro s
    rw [countWords_eq_tokCount]
    unfold specWordCount
    have h5 := (tok_splitOnWs s.data).1
    unfold cntNE at h5
    rw [← h5]
  refine ⟨hmain, by decide, by decide, ?_⟩
  intro env cfg job doc h
  obtain ⟨er, -, -, hw, he, -, -, -⟩ := processDocument_ok_fields env cfg job doc h
  rw [hw, he]
  exact hmain er.text

/-- Witness for C6 on the concretely assembled document of the PDF job. -/
theorem countWords_spec_witness :
    pdfDoc.wordCount = specWordCount pdfDoc.extractedText :=
  countWords_spec.2.2.2 trivEnv defaultConfig pdfJob pdfDoc rfl

lemma detect_fold_first_argmax (w : List String) :
    ((commonWords.foldl
        (fun acc p => if acc.1 < langScore w p.2 then (langScore w p.2, p.1) else acc)
        (0, "en")).2 = "en" ∨
     (commonWords.foldl
        (fun acc p => if acc.1 < langScore w p.2 then (langScore w p.2, p.1) else acc)
        (0, "en")).2 = "es" ∨
     (commonWords.foldl
        (fun acc p => if acc.1 < langScore w p.2 then (langScore w p.2, p.1) else acc)
        (0, "en")).2 = "fr") ∧
    ((commonWords.foldl
        (fun acc p => if acc.1 < langScore w p.2 then (langScore w p.2, p.1) else acc)
        (0, "en")).2 = "en" →
      langScore w esWords ≤ langScore w enWords ∧
      langScore w frWords ≤ langScore w enWords) ∧
    ((commonWords.foldl
        (fun acc p => if acc.1 < langScore w p.2 then (langScore w p.2, p.1) else acc)
        (0, "en")).2 = "es" →
      langScore w enWords < langScore w esWords ∧
      langScore w frWords ≤ langScore w esWords) ∧
    ((commonWords.foldl
        (fun acc p => if acc.1 < langScore w p.2 then (langScore w p.2, p.1) else acc)
        (0, "en")).2 = "fr" →
      langScore w enWords < langScore w frWords ∧
      langScore w esWords < langScore w frWords) := by
  simp only [commonWords, List.foldl_cons, List.foldl_nil]
  split_ifs <;> dsimp only at * <;>
    first
      | exact ⟨Or.inl rfl, fun _ => ⟨by omega, by omega⟩,
          fun hh => absurd hh (by decide), fun hh => absurd hh (by decide)⟩
      | exact ⟨Or.inr (Or.inl rfl), fun hh => absurd hh (by decide),
          fun _ => ⟨by omega, by omega⟩, fun hh => absurd hh (by decide)⟩
      | exact ⟨Or.inr (Or.inr rfl), fun hh => absurd hh (by decide),
          fun hh => absurd hh (by decide), fun _ => ⟨by omega, by omega⟩⟩

/-- C8 counterexample: on empty text `detectLanguage` returns "unknown",
not English, so the claim's empty-text case is false on the code. -/
theorem detectLanguage_empty_not_english :
    detectLanguage "" = "unknown" ∧ detectLanguage "" ≠ "en" :=
  ⟨rfl, by decide⟩

/-- C8 (amended): for non-empty text the heuristic scores the first 100
lowercased whitespace-split tokens against the English, Spanish and
French stop-word lists and returns the first language in insertion order
(en, es, fr) achieving the maximal score — so English wins every tie it
is part of and every zero-signal input, but a Spanish/French tie goes to
Spanish — and empty text yields "unknown", not English. -/
theorem detectLanguage_first_argmax (s : String) (hs : s ≠ "") :
    (detectLanguage s = "en" ∨ detectLanguage s = "es" ∨ detectLanguage s = "fr") ∧
    (detectLanguage s = "en" →
      langScore ((jsSplitWs (jsToLower s)).take 100) esWords
          ≤ langScore ((jsSplitWs (jsToLower s)).take 100) enWords ∧
      langScore ((jsSplitWs (jsToLower s)).take 100) frWords
          ≤ langScore ((jsSplitWs (jsToLower s)).take 100) enWords) ∧
    (detectLanguage s = "es" →
      langScore ((jsSplitWs (jsToLower s)).take 100) enWords
          < langScore ((jsSplitWs (jsToLower s)).take 100) esWords ∧
      langScore ((jsSplitWs (jsToLower s)).take 100) frWords
          ≤ langScore ((jsSplitWs (jsToLower s)).take 100) esWords) ∧
    (detectLanguage s = "fr" →
      langScore ((jsSplitWs (jsToLower s)).take 100) enWords
          < langScore ((jsSplitWs (jsToLower s)).take 100) frWords ∧
      langScore ((jsSplitWs (jsToLower s)).take 100) esWords
          < langScore ((jsSplitWs (jsToLower s)).take 100) frWords) ∧
    detectLanguage "" = "unknown" := by
  have hval : detectLanguage s =
      (commonWords.foldl
        (fun acc p => if acc.1 < langScore ((jsSplitWs (jsToLower s)).take 100) p.2
          then (langScore ((jsSplitWs (jsToLower s)).take 100) p.2, p.1) else acc)
        (0, "en")).2 := by
    simp only [detectLanguage, if_neg hs]
  have h := detect_fold_first_argmax ((jsSplitWs (jsToLower s)).take 100)
  rw [← hval] at h
  exact ⟨h.1, h.2.1, h.2.2.1, h.2.2.2, rfl⟩

/-- Witness for the amended C8 at a concrete non-empty input. -/
theorem detectLanguage_first_argmax_witness :
    detectLanguage "water" = "en" ∨ detectLanguage "water" = "es" ∨
    detectLanguage "water" = "fr" :=
  (detectLanguage_first_argmax "water" (by decide)).1
